import Mathlib

/-!
Verification of the validation / request-building core of the
`aws-sqs-send-message` GitHub action (files `src/sqs.ts` and `src/index.ts`).

The TypeScript source is shallowly embedded:

* JS values parsed from JSON are modelled by the inductive type `Json`
  (JSON numbers are modelled as integers; no claim involves non-integer
  numbers);
* `throw new Error(...)` is modelled with `Except SqsError`; the error
  constructors are tagged with the spec's error-kind taxonomy, one
  constructor per `throw` site of the source;
* Node's lenient base64 decoding (`Buffer.from(s, 'base64')`, which skips
  characters outside the base64 alphabet and stops at the first `'='`) is
  modelled by `base64DecodeLenient`;
* the anchored regular expression of `validateQueueUrl` is embedded as a
  regular expression term `urlPattern` and matched with Brzozowski
  derivatives (`rmatch`), whose semantics is proved against the inductive
  language predicate `RMatches`;
* the `@actions/core` warning side effect of `validateFifoQueue` is
  returned as a `Bool` ("a warning was emitted");
* the SQS client is an explicit function parameter of `sendMessage`, and
  the model additionally reports which request (if any) was handed to it.
-/

namespace Sqs

/-- JSON values as produced by `JSON.parse`.  Numbers are modelled as
integers (the claims only involve integral numbers); object fields are kept
in source order (`JSON.parse` deduplicates keys; we assume distinct keys). -/
inductive Json where
  | null : Json
  | bool (b : Bool) : Json
  | num (n : Int) : Json
  | str (s : String) : Json
  | arr (elems : List Json) : Json
  | obj (fields : List (String × Json)) : Json

/-- Error kinds, one constructor per `throw` site of the source, tagged with
the spec's taxonomy (`FormatError`, `SizeLimitError`, `RangeError`,
`MissingRequiredFieldError`, `SchemaError`, `DecodeError` has no
corresponding site — see `base64DecodeLenient`). -/
inductive SqsError where
  | formatError (url : String)                -- validateQueueUrl
  | sizeLimitError (bytes : Nat)              -- validateMessageBody
  | rangeError (delay : Int)                  -- validateDelaySeconds
  | missingRequiredFieldError                 -- validateFifoQueue
  | attrParseError                            -- JSON.parse threw
  | attrTypeError                             -- TypeError (null conversion / Buffer.from on a non-decodable value)
  | tooManyAttributes (n : Nat)               -- "Too many message attributes"
  | missingDataType (key : String)            -- "Missing DataType for attribute ..."
  | invalidDataType (key : String)            -- "Invalid DataType ..."
  | missingStringValue (key : String)         -- "Missing StringValue ..."
  | missingBinaryValue (key : String)         -- "Missing BinaryValue ..."
deriving DecidableEq

/-- JS truthiness of a JSON value (`!attr.DataType`). -/
def jsTruthy : Json → Bool
  | .null => false
  | .bool b => b
  | .num n => n != 0
  | .str s => !s.isEmpty
  | .arr _ => true
  | .obj _ => true

/-- JS property access `v[key]` for the property names used by the source
(`DataType`, `StringValue`, `BinaryValue`): only objects can carry such own
properties; `none` models `undefined`.  Access on `null` throws and is
handled by the caller (`parseEntry`). -/
def jsGetProp (v : Json) (key : String) : Option Json :=
  match v with
  | .obj fields => fields.lookup key
  | _ => none

mutual

/-- JS `String(v)` coercion (`Array.prototype.toString` joins elements with
commas, rendering `null` elements as empty text). -/
def jsToString : Json → String
  | .null => "null"
  | .bool true => "true"
  | .bool false => "false"
  | .num n => toString n
  | .str s => s
  | .arr elems => String.intercalate "," (jsToStringElems elems)
  | .obj _ => "[object Object]"

def jsToStringElems : List Json → List String
  | [] => []
  | .null :: rest => "" :: jsToStringElems rest
  | e :: rest => jsToString e :: jsToStringElems rest

end

/-- Value of a character in Node's base64 decode table: both the standard
and the URL-safe alphabet are accepted (`-` ≡ `+`, `_` ≡ `/`). -/
def base64Val (c : Char) : Option Nat :=
  if 'A' ≤ c ∧ c ≤ 'Z' then some (c.toNat - 'A'.toNat)
  else if 'a' ≤ c ∧ c ≤ 'z' then some (c.toNat - 'a'.toNat + 26)
  else if '0' ≤ c ∧ c ≤ '9' then some (c.toNat - '0'.toNat + 52)
  else if c = '+' ∨ c = '-' then some 62
  else if c = '/' ∨ c = '_' then some 63
  else none

/-- Turn a stream of 6-bit values into bytes (4 sextets give 3 bytes; a
final group of 3 gives 2 bytes, of 2 gives 1 byte, of 1 gives none). -/
def decodeSextets : List Nat → List Nat
  | a :: b :: c :: d :: rest =>
      (a * 4 + b / 16) :: ((b % 16) * 16 + c / 4) :: ((c % 4) * 64 + d) :: decodeSextets rest
  | [a, b, c] => [a * 4 + b / 16, (b % 16) * 16 + c / 4]
  | [a, b] => [a * 4 + b / 16]
  | _ => []

/-- Node's `Buffer.from(s, 'base64')`: scanning stops at the first `'='`,
characters outside the base64 alphabet are skipped, and the surviving
sextets are packed into bytes.  It never fails: malformed base64 is decoded
leniently. -/
def base64DecodeLenient (s : String) : List Nat :=
  decodeSextets ((s.data.takeWhile (· ≠ '=')).filterMap base64Val)

/-- `Buffer.from(array)`: array elements are coerced to numbers and
truncated to bytes (non-numeric elements, which coerce through `NaN`,
become 0; that coercion detail is irrelevant to the claims). -/
def jsBytesFromArray (elems : List Json) : List Nat :=
  elems.map fun e =>
    match e with
    | .num n => (n.emod 256).toNat
    | .bool true => 1
    | _ => 0

/-- The SDK's `MessageAttributeValue` record as populated by the source:
a `DataType` tag plus optional text and binary payloads. -/
structure MessageAttributeValue where
  DataType : String
  StringValue : Option String := none
  BinaryValue : Option (List Nat) := none
deriving DecidableEq

/-- `Object.entries(parsed)` (and, for the count check, `Object.keys`):
`null` cannot be converted to an object (TypeError); primitives expose no
enumerable own properties except the indices of a string; arrays expose
their indices. -/
def jsEntries : Json → Except SqsError (List (String × Json))
  | .null => .error .attrTypeError
  | .bool _ => .ok []
  | .num _ => .ok []
  | .str s => .ok (s.data.enum.map fun p => (toString p.1, Json.str p.2.toString))
  | .arr elems => .ok (elems.enum.map fun p => (toString p.1, p.2))
  | .obj fields => .ok fields

/-- The body of the `for (const [key, value] of Object.entries(parsed))`
loop of `parseMessageAttributes` for one entry: validates `DataType`, then
the presence of the payload required by it, then builds the attribute —
copying `StringValue` (coerced with `String(...)`) and `BinaryValue`
(decoded from base64) whenever each is present, independently of
`DataType`. -/
def parseEntry (key : String) (v : Json) : Except SqsError MessageAttributeValue := do
  -- `attr.DataType` — property access on null throws a TypeError
  match v with
  | .null => throw .attrTypeError
  | _ => pure ()
  -- `if (!attr.DataType)` — absent or falsy DataType
  let dt ← match jsGetProp v "DataType" with
    | none => throw (.missingDataType key)
    | some dt =>
        if jsTruthy dt then pure dt else throw (.missingDataType key)
  -- `if (!validDataTypes.includes(attr.DataType))`
  let dtStr ← match dt with
    | .str "String" => pure "String"
    | .str "Number" => pure "Number"
    | .str "Binary" => pure "Binary"
    | _ => throw (.invalidDataType key)
  let svOpt := jsGetProp v "StringValue"
  let bvOpt := jsGetProp v "BinaryValue"
  -- required-payload validation, keyed on the DataType
  if dtStr = "String" ∨ dtStr = "Number" then
    if svOpt.isNone then throw (.missingStringValue key)
  else
    if bvOpt.isNone then throw (.missingBinaryValue key)
  -- build the attribute (both payload copies are independent of DataType)
  let bv ← match bvOpt with
    | none => pure none
    | some (.str s) => pure (some (base64DecodeLenient s))
    | some (.arr elems) => pure (some (jsBytesFromArray elems))
    | some _ => throw .attrTypeError   -- Buffer.from on a non-decodable value
  pure { DataType := dtStr, StringValue := svOpt.map jsToString, BinaryValue := bv }

/-- The entry loop: entries are processed in order and the first `throw`
aborts the whole parse. -/
def parseEntries : List (String × Json) → Except SqsError (List (String × MessageAttributeValue))
  | [] => .ok []
  | (key, v) :: rest => do
      let a ← parseEntry key v
      let out ← parseEntries rest
      pure ((key, a) :: out)

/-- `parseMessageAttributes`.  The argument models the raw JSON text after
`JSON.parse`: `none` means the text was not valid JSON (`JSON.parse`
threw), `some j` means it parsed to the value `j`. -/
def parseMessageAttributes (parsed? : Option Json) :
    Except SqsError (List (String × MessageAttributeValue)) := do
  match parsed? with
  | none => throw .attrParseError
  | some parsed =>
      let entries ← jsEntries parsed
      -- `if (attributeKeys.length > 10)`
      if entries.length > 10 then
        throw (.tooManyAttributes entries.length)
      else
        parseEntries entries

/-- `parseSystemAttributes` just delegates. -/
def parseSystemAttributes (parsed? : Option Json) :
    Except SqsError (List (String × MessageAttributeValue)) :=
  parseMessageAttributes parsed?

/-!  Regular expressions with character-class atoms, matched with
Brzozowski derivatives.  This embeds the anchored JS regex literal of
`validateQueueUrl`; with both anchors present, `RegExp.test` is full-string
matching. -/

/-- Regular expressions; `cls p` matches exactly one character satisfying
`p`. -/
inductive Regex where
  | emp : Regex
  | eps : Regex
  | cls (p : Char → Bool) : Regex
  | seq (r1 r2 : Regex) : Regex
  | alt (r1 r2 : Regex) : Regex
  | star (r : Regex) : Regex

/-- Does the regex accept the empty string? -/
def nullable : Regex → Bool
  | .emp => false
  | .eps => true
  | .cls _ => false
  | .seq r1 r2 => nullable r1 && nullable r2
  | .alt r1 r2 => nullable r1 || nullable r2
  | .star _ => true

/-- Brzozowski derivative by one character. -/
def deriv : Regex → Char → Regex
  | .emp, _ => .emp
  | .eps, _ => .emp
  | .cls p, c => if p c then .eps else .emp
  | .seq r1 r2, c =>
      if nullable r1 then .alt (.seq (deriv r1 c) r2) (deriv r2 c)
      else .seq (deriv r1 c) r2
  | .alt r1 r2, c => .alt (deriv r1 c) (deriv r2 c)
  | .star r, c => .seq (deriv r c) (.star r)

/-- Full-string regex matching by iterated derivatives. -/
def rmatch (r : Regex) (s : List Char) : Bool :=
  nullable (s.foldl deriv r)

/-- The language of a regex, as an inductive predicate.  The star rule
consumes a nonempty chunk per step, which describes the same language. -/
inductive RMatches : Regex → List Char → Prop where
  | eps : RMatches .eps []
  | cls {p : Char → Bool} {c : Char} : p c = true → RMatches (.cls p) [c]
  | seq {r1 r2 : Regex} {s1 s2 : List Char} :
      RMatches r1 s1 → RMatches r2 s2 → RMatches (.seq r1 r2) (s1 ++ s2)
  | altL {r1 r2 : Regex} {s : List Char} : RMatches r1 s → RMatches (.alt r1 r2) s
  | altR {r1 r2 : Regex} {s : List Char} : RMatches r2 s → RMatches (.alt r1 r2) s
  | starNil {r : Regex} : RMatches (.star r) []
  | starCons {r : Regex} {c : Char} {s1 s2 : List Char} :
      RMatches r (c :: s1) → RMatches (.star r) s2 →
      RMatches (.star r) ((c :: s1) ++ s2)

def lit (cs : List Char) : Regex :=
  cs.foldr (fun c r => .seq (.cls (· == c)) r) .eps

/-- `r+` -/
def plus (r : Regex) : Regex := .seq r (.star r)

/-- `r?` -/
def opt (r : Regex) : Regex := .alt .eps r

def isRegionChar (c : Char) : Bool :=
  decide (('a' ≤ c ∧ c ≤ 'z') ∨ ('0' ≤ c ∧ c ≤ '9') ∨ c = '-')

/-- The class `\d`, i.e. `[0-9]`. -/
def isDigitChar (c : Char) : Bool :=
  decide ('0' ≤ c ∧ c ≤ '9')

/-- The JS `.` atom (no `s` flag): any character except a line
terminator (`\n`, `\r`, U+2028, U+2029). -/
def isDotChar (c : Char) : Bool :=
  decide (c ≠ '\n' ∧ c ≠ '\r' ∧ c ≠ Char.ofNat 0x2028 ∧ c ≠ Char.ofNat 0x2029)

/-- A literal given as a string. -/
def litS (s : String) : Regex := lit s.data

/-- The regex literal of `validateQueueUrl`, embedded subterm by
subterm. -/
def urlPattern : Regex :=
  .seq (litS "https://sqs.")
    (.seq (plus (.cls isRegionChar))
      (.seq (litS ".amazonaws.com")
        (.seq (opt (litS ".cn"))
          (.seq (.cls (· == '/'))
            (.seq (plus (.cls isDigitChar))
              (.seq (.cls (· == '/'))
                (plus (.cls isDotChar))))))))

/-- `validateQueueUrl` (with both anchors, `RegExp.test` is a full-string
match). -/
def validateQueueUrl (url : String) : Except SqsError Unit :=
  if rmatch urlPattern url.data then .ok () else .error (.formatError url)

/-- Modelled from the spec for comparison with the code's pattern: the
queue-name part restricted to non-slash characters, as the claim states
(everything else identical to `urlPattern`). -/
def specUrlPattern : Regex :=
  .seq (litS "https://sqs.")
    (.seq (plus (.cls isRegionChar))
      (.seq (litS ".amazonaws.com")
        (.seq (opt (litS ".cn"))
          (.seq (.cls (· == '/'))
            (.seq (plus (.cls isDigitChar))
              (.seq (.cls (· == '/'))
                (plus (.cls (· != '/')))))))))

/-- The URL shape `validateQueueUrl` actually accepts:
`https://sqs.<region>.amazonaws.com[.cn]/<account-id>/<queue-name>` where
the region is a nonempty run of `[a-z0-9-]`, the account id a nonempty run
of digits, and the queue name one or more arbitrary non-line-terminator
characters (slashes included). -/
def IsQueueUrlShape (s : List Char) : Prop :=
  ∃ region cn acct name : List Char,
    s = "https://sqs.".data ++ (region ++ (".amazonaws.com".data ++ (cn ++
        '/' :: (acct ++ '/' :: name)))) ∧
    region ≠ [] ∧ (∀ c ∈ region, isRegionChar c = true) ∧
    (cn = [] ∨ cn = ".cn".data) ∧
    acct ≠ [] ∧ (∀ c ∈ acct, isDigitChar c = true) ∧
    name ≠ [] ∧ (∀ c ∈ name, isDotChar c = true)

/-- `Buffer.byteLength(s, 'utf8')`: the UTF-8 byte length of a string. -/
def utf8ByteLength (s : String) : Nat :=
  (s.data.map Char.utf8Size).sum

/-- `validateMessageBody`: rejects bodies longer than 256 KiB of UTF-8. -/
def validateMessageBody (messageBody : String) : Except SqsError Unit :=
  if utf8ByteLength messageBody > 256 * 1024 then
    .error (.sizeLimitError (utf8ByteLength messageBody))
  else
    .ok ()

/-- `validateDelaySeconds`: an absent (`undefined`) delay is valid; a
present one must satisfy `0 ≤ delay ≤ 900`. -/
def validateDelaySeconds : Option Int → Except SqsError Unit
  | none => .ok ()
  | some delay =>
      if delay < 0 ∨ delay > 900 then .error (.rangeError delay) else .ok ()

/-- JS truthiness of an optional string input (`undefined` and the empty
string are falsy). -/
def strTruthy : Option String → Bool
  | none => false
  | some s => !s.isEmpty

/-- `url.endsWith(suffix)` (spelled out over the character lists so that
it evaluates inside the kernel). -/
def strEndsWith (s suffix : String) : Bool :=
  List.isPrefixOf suffix.data.reverse s.data.reverse

/-- `validateFifoQueue`.  The returned `Bool` records whether the
`core.warning` side effect fired (non-FIFO URL together with a truthy
group ID). -/
def validateFifoQueue (queueUrl : String) (messageGroupId : Option String) :
    Except SqsError Bool :=
  let isFifo := strEndsWith queueUrl ".fifo"
  if isFifo && !strTruthy messageGroupId then
    .error .missingRequiredFieldError
  else if !isFifo && strTruthy messageGroupId then
    .ok true
  else
    .ok false

/-- `MessageConfig`.  The two raw-JSON text fields are modelled after
`JSON.parse`: `none` = the field is absent or empty text (falsy, so the
source skips it), `some none` = nonempty text that is not valid JSON,
`some (some j)` = nonempty text parsing to `j`. -/
structure MessageConfig where
  queueUrl : String
  messageBody : String
  messageAttributes : Option (Option Json) := none
  delaySeconds : Option Int := none
  messageGroupId : Option String := none
  messageDeduplicationId : Option String := none
  systemAttributes : Option (Option Json) := none

/-- The SDK's `SendMessageCommandInput` as populated by `sendMessage`. -/
structure SendMessageCommandInput where
  QueueUrl : String
  MessageBody : String
  DelaySeconds : Option Int := none
  MessageAttributes : Option (List (String × MessageAttributeValue)) := none
  MessageSystemAttributes : Option (List (String × MessageAttributeValue)) := none
  MessageGroupId : Option String := none
  MessageDeduplicationId : Option String := none

/-- The SDK's send-message response (all fields optional). -/
structure SendMessageResponse where
  MessageId : Option String := none
  SequenceNumber : Option String := none
  MD5OfMessageBody : Option String := none
  MD5OfMessageAttributes : Option String := none

/-- `MessageResult`. -/
structure MessageResult where
  success : Bool
  messageId : Option String := none
  sequenceNumber : Option String := none
  md5OfBody : Option String := none
  md5OfAttributes : Option String := none
  error : Option String := none

/-- The human-readable message attached to each `throw` site
(interpolated values abbreviated; attribute errors carry the
`Failed to parse message attributes:` prefix added by the wrapping
`catch`). -/
def errorMessage : SqsError → String
  | .formatError url => "Invalid queue URL format: " ++ url
  | .sizeLimitError n => "Message body size (" ++ toString n ++ " bytes) exceeds maximum allowed size"
  | .rangeError d => "delay-seconds must be between 0 and 900 (got " ++ toString d ++ ")"
  | .missingRequiredFieldError => "message-group-id is required for FIFO queues (queue URL ends with .fifo)"
  | .attrParseError => "Failed to parse message attributes: invalid JSON"
  | .attrTypeError => "Failed to parse message attributes: TypeError"
  | .tooManyAttributes n => "Failed to parse message attributes: Too many message attributes: " ++ toString n
  | .missingDataType key => "Failed to parse message attributes: Missing DataType for attribute " ++ key
  | .invalidDataType key => "Failed to parse message attributes: Invalid DataType for attribute " ++ key
  | .missingStringValue key => "Failed to parse message attributes: Missing StringValue for attribute " ++ key
  | .missingBinaryValue key => "Failed to parse message attributes: Missing BinaryValue for attribute " ++ key

/-- `if (config.delaySeconds !== undefined && config.delaySeconds > 0)
input.DelaySeconds = config.delaySeconds` -/
def addDelay (config : MessageConfig) (input : SendMessageCommandInput) :
    SendMessageCommandInput :=
  match config.delaySeconds with
  | some d => if d > 0 then { input with DelaySeconds := some d } else input
  | none => input

/-- `if (config.messageAttributes)
input.MessageAttributes = parseMessageAttributes(config.messageAttributes)` -/
def addMessageAttributes (config : MessageConfig)
    (input : SendMessageCommandInput) : Except SqsError SendMessageCommandInput :=
  match config.messageAttributes with
  | some parsed? => do
      let attrs ← parseMessageAttributes parsed?
      pure { input with MessageAttributes := some attrs }
  | none => pure input

/-- `if (config.systemAttributes)
input.MessageSystemAttributes = parseSystemAttributes(config.systemAttributes)` -/
def addSystemAttributes (config : MessageConfig)
    (input : SendMessageCommandInput) : Except SqsError SendMessageCommandInput :=
  match config.systemAttributes with
  | some parsed? => do
      let attrs ← parseSystemAttributes parsed?
      pure { input with MessageSystemAttributes := some attrs }
  | none => pure input

/-- `if (config.messageGroupId) input.MessageGroupId = config.messageGroupId` -/
def addGroupId (config : MessageConfig) (input : SendMessageCommandInput) :
    SendMessageCommandInput :=
  if strTruthy config.messageGroupId then
    { input with MessageGroupId := config.messageGroupId }
  else input

/-- `if (config.messageDeduplicationId) input.MessageDeduplicationId = ...` -/
def addDedupId (config : MessageConfig) (input : SendMessageCommandInput) :
    SendMessageCommandInput :=
  if strTruthy config.messageDeduplicationId then
    { input with MessageDeduplicationId := config.messageDeduplicationId }
  else input

/-- The validation-and-build phase of `sendMessage` (everything before
`client.send`), in source order: URL, body, delay, FIFO, then the command
input assembled field by field (each `add…` step is one `if` statement of
the source).  The `Bool` is the FIFO warning flag. -/
def buildInput (config : MessageConfig) :
    Except SqsError (SendMessageCommandInput × Bool) := do
  validateQueueUrl config.queueUrl
  validateMessageBody config.messageBody
  validateDelaySeconds config.delaySeconds
  let warned ← validateFifoQueue config.queueUrl config.messageGroupId
  let input0 : SendMessageCommandInput :=
    { QueueUrl := config.queueUrl, MessageBody := config.messageBody }
  let input1 := addDelay config input0
  let input2 ← addMessageAttributes config input1
  let input3 ← addSystemAttributes config input2
  pure (addDedupId config (addGroupId config input3), warned)

/-- `sendMessage`.  The SQS client is the function argument `send`
(`Except.error` = transport/authorization rejection).  Besides the
`MessageResult`, the model reports which request, if any, was handed to
the client (`none` = `client.send` never ran).  The whole body sits in a
`try/catch`, so every error becomes a `success: false` result and the
function never throws. -/
def sendMessage (send : SendMessageCommandInput → Except String SendMessageResponse)
    (config : MessageConfig) : MessageResult × Option SendMessageCommandInput :=
  match buildInput config with
  | .error e => ({ success := false, error := some (errorMessage e) }, none)
  | .ok (input, _) =>
      match send input with
      | .error msg => ({ success := false, error := some msg }, some input)
      | .ok response =>
          ({ success := true
             messageId := response.MessageId
             sequenceNumber := response.SequenceNumber
             md5OfBody := response.MD5OfMessageBody
             md5OfAttributes := response.MD5OfMessageAttributes }, some input)

/-!  The delay-seconds input stage of `run` (src/index.ts). -/

/-- The optional-sign step of `parseInt`: returns the sign and the
remaining characters. -/
def parseIntSign : List Char → Int × List Char
  | '-' :: t => (-1, t)
  | '+' :: t => (1, t)
  | cs => (1, cs)

/-- JS `parseInt(s, 10)`: skip leading whitespace, read an optional sign,
then the longest prefix of decimal digits; `none` models `NaN` (no digits
found).  (JS also skips some exotic Unicode whitespace, and loses
precision above 2^53; neither matters here.) -/
def jsParseInt10 (s : String) : Option Int :=
  let signAndRest := parseIntSign (s.data.dropWhile fun c => c.isWhitespace)
  let ds := signAndRest.2.takeWhile fun c => c.isDigit
  if ds.isEmpty then none
  else some (signAndRest.1 * (ds.foldl (fun acc c => acc * 10 + (c.toNat - '0'.toNat)) 0 : Nat))

/-- The delay-seconds stage of `run`:
`const delaySecondsStr = core.getInput('delay-seconds') || '0'` followed by
`parseInt(..., 10)` and the `isNaN` check, which `run` reports as the
spec's `FormatError`.  The argument is the raw input text (`""` =
unset). -/
def parseDelayInput (raw : String) : Except SqsError Int :=
  let delaySecondsStr := if raw.isEmpty then "0" else raw
  match jsParseInt10 delaySecondsStr with
  | none => .error (.formatError delaySecondsStr)
  | some n => .ok n

/-- The invariant the spec ascribes to produced attributes, restricted to
what the code guarantees: the type tag is one of the three valid ones and
the payload *required* by the tag is present (the code may additionally
copy the other payload when the entry supplies both fields). -/
def HasRequiredPayload (a : MessageAttributeValue) : Prop :=
  (a.DataType = "String" ∨ a.DataType = "Number" ∨ a.DataType = "Binary") ∧
  ((a.DataType = "String" ∨ a.DataType = "Number") → a.StringValue.isSome = true) ∧
  (a.DataType = "Binary" → a.BinaryValue.isSome = true)

/-- Does a character begin a digit run?  Used to characterize when
`parseInt` yields `NaN`. -/
def headIsDigit : List Char → Bool
  | c :: _ => c.isDigit
  | [] => false

/-- Characterizes the inputs `parseInt(s, 10)` can parse: after optional
leading whitespace and an optional sign, the next character must be a
decimal digit. -/
def hasLeadingInt (s : String) : Bool :=
  headIsDigit (parseIntSign (s.data.dropWhile fun c => c.isWhitespace)).2

theorem rmatches_eps_iff {s : List Char} : RMatches .eps s ↔ s = [] := by
  constructor
  · intro h; cases h; rfl
  · rintro rfl; exact .eps

theorem rmatches_cls_iff {p : Char → Bool} {s : List Char} :
    RMatches (.cls p) s ↔ ∃ c, s = [c] ∧ p c = true := by
  constructor
  · intro h
    cases h with
    | cls hp => exact ⟨_, rfl, hp⟩
  · rintro ⟨c, rfl, hp⟩
    exact .cls hp

theorem rmatches_seq_iff {r1 r2 : Regex} {s : List Char} :
    RMatches (.seq r1 r2) s ↔
      ∃ s1 s2, s = s1 ++ s2 ∧ RMatches r1 s1 ∧ RMatches r2 s2 := by
  constructor
  · intro h
    cases h with
    | seq h1 h2 => exact ⟨_, _, rfl, h1, h2⟩
  · rintro ⟨s1, s2, rfl, h1, h2⟩
    exact .seq h1 h2

theorem rmatches_alt_iff {r1 r2 : Regex} {s : List Char} :
    RMatches (.alt r1 r2) s ↔ RMatches r1 s ∨ RMatches r2 s := by
  constructor
  · intro h
    cases h with
    | altL h => exact Or.inl h
    | altR h => exact Or.inr h
  · rintro (h | h)
    · exact .altL h
    · exact .altR h

theorem rmatches_star_inv {r : Regex} {s : List Char} (h : RMatches (.star r) s) :
    s = [] ∨ ∃ c s1 s2, s = (c :: s1) ++ s2 ∧ RMatches r (c :: s1) ∧ RMatches (.star r) s2 := by
  cases h with
  | starNil => exact Or.inl rfl
  | starCons h1 h2 => exact Or.inr ⟨_, _, _, rfl, h1, h2⟩

theorem nullable_iff (r : Regex) : nullable r = true ↔ RMatches r [] := by
  induction r with
  | emp =>
      simp only [nullable, Bool.false_eq_true, false_iff]
      intro h; cases h
  | eps =>
      simp only [nullable, true_iff]
      exact .eps
  | cls p =>
      simp only [nullable, Bool.false_eq_true, false_iff, rmatches_cls_iff]
      rintro ⟨c, hc, -⟩
      cases hc
  | seq r1 r2 ih1 ih2 =>
      simp only [nullable, Bool.and_eq_true, ih1, ih2, rmatches_seq_iff]
      constructor
      · rintro ⟨h1, h2⟩
        exact ⟨[], [], rfl, h1, h2⟩
      · rintro ⟨s1, s2, heq, h1, h2⟩
        rcases List.append_eq_nil.mp heq.symm with ⟨rfl, rfl⟩
        exact ⟨h1, h2⟩
  | alt r1 r2 ih1 ih2 =>
      simp only [nullable, Bool.or_eq_true, ih1, ih2, rmatches_alt_iff]
  | star r _ =>
      simp only [nullable, true_iff]
      exact .starNil

theorem deriv_sound {r : Regex} {c : Char} {s : List Char}
    (h : RMatches (deriv r c) s) : RMatches r (c :: s) := by
  induction r generalizing s with
  | emp => simp only [deriv] at h; cases h
  | eps => simp only [deriv] at h; cases h
  | cls p =>
      simp only [deriv] at h
      by_cases hp : p c = true
      · rw [if_pos hp] at h
        rw [rmatches_eps_iff.mp h]
        exact .cls hp
      · rw [if_neg hp] at h
        cases h
  | seq r1 r2 ih1 ih2 =>
      simp only [deriv] at h
      by_cases hn : nullable r1 = true
      · rw [if_pos hn] at h
        rcases rmatches_alt_iff.mp h with h | h
        · rcases rmatches_seq_iff.mp h with ⟨s1, s2, rfl, h1, h2⟩
          exact RMatches.seq (ih1 h1) h2
        · have h0 : RMatches r1 [] := (nullable_iff r1).1 hn
          have := RMatches.seq h0 (ih2 h)
          simpa using this
      · rw [if_neg hn] at h
        rcases rmatches_seq_iff.mp h with ⟨s1, s2, rfl, h1, h2⟩
        exact RMatches.seq (ih1 h1) h2
  | alt r1 r2 ih1 ih2 =>
      simp only [deriv] at h
      rcases rmatches_alt_iff.mp h with h | h
      · exact .altL (ih1 h)
      · exact .altR (ih2 h)
  | star r ih =>
      simp only [deriv] at h
      rcases rmatches_seq_iff.mp h with ⟨s1, s2, rfl, h1, h2⟩
      exact RMatches.starCons (ih h1) h2

theorem deriv_complete {r : Regex} {c : Char} {s : List Char}
    (h : RMatches r (c :: s)) : RMatches (deriv r c) s := by
  induction r generalizing c s with
  | emp => cases h
  | eps =>
      have := rmatches_eps_iff.mp h
      cases this
  | cls p =>
      rcases rmatches_cls_iff.mp h with ⟨c', hc, hp⟩
      injection hc with hc1 hc2
      subst hc1
      subst hc2
      simp only [deriv, hp, if_true]
      exact .eps
  | seq r1 r2 ih1 ih2 =>
      rcases rmatches_seq_iff.mp h with ⟨s1, s2, heq, h1, h2⟩
      cases s1 with
      | nil =>
          have hn : nullable r1 = true := (nullable_iff r1).2 h1
          simp only [List.nil_append] at heq
          subst heq
          simp only [deriv, hn, if_true]
          exact .altR (ih2 h2)
      | cons c1 t =>
          simp only [List.cons_append, List.cons.injEq] at heq
          obtain ⟨rfl, rfl⟩ := heq
          have hmid : RMatches (.seq (deriv r1 c) r2) (t ++ s2) :=
            RMatches.seq (ih1 h1) h2
          simp only [deriv]
          by_cases hn : nullable r1 = true
          · rw [if_pos hn]
            exact .altL hmid
          · rw [if_neg hn]
            exact hmid
  | alt r1 r2 ih1 ih2 =>
      rcases rmatches_alt_iff.mp h with h | h
      · simp only [deriv]
        exact .altL (ih1 h)
      · simp only [deriv]
        exact .altR (ih2 h)
  | star r ih =>
      rcases rmatches_star_inv h with heq | ⟨c1, s1, s2, heq, h1, h2⟩
      · cases heq
      · simp only [List.cons_append, List.cons.injEq] at heq
        obtain ⟨rfl, rfl⟩ := heq
        simp only [deriv]
        exact RMatches.seq (ih h1) h2

theorem rmatch_iff (r : Regex) (s : List Char) : rmatch r s = true ↔ RMatches r s := by
  induction s generalizing r with
  | nil => exact nullable_iff r
  | cons c s ih =>
      have hfold : rmatch r (c :: s) = rmatch (deriv r c) s := rfl
      rw [hfold, ih]
      exact ⟨fun h => deriv_sound h, fun h => deriv_complete h⟩

/-- A literal string, character by character. -/
theorem lit_cons (c : Char) (t : List Char) :
    lit (c :: t) = .seq (.cls (· == c)) (lit t) := rfl

theorem rmatches_lit_iff {t s : List Char} : RMatches (lit t) s ↔ s = t := by
  induction t generalizing s with
  | nil => exact rmatches_eps_iff
  | cons c t ih =>
      rw [lit_cons, rmatches_seq_iff]
      constructor
      · rintro ⟨s1, s2, rfl, h1, h2⟩
        rcases rmatches_cls_iff.mp h1 with ⟨c', rfl, hp⟩
        have hc : c' = c := by simpa using hp
        subst hc
        rw [ih.mp h2]
        rfl
      · rintro rfl
        exact ⟨[c], t, rfl, .cls (by simp), ih.mpr rfl⟩

theorem rmatches_star_cls_aux {r : Regex} {s : List Char} (h : RMatches r s) :
    ∀ p : Char → Bool, r = .star (.cls p) → ∀ c ∈ s, p c = true := by
  induction h with
  | eps => intro p hp; cases hp
  | cls _ => intro p hp; cases hp
  | seq _ _ _ _ => intro p hp; cases hp
  | altL _ _ => intro p hp; cases hp
  | altR _ _ => intro p hp; cases hp
  | starNil => intro p hp c hc; cases hc
  | starCons h1 h2 ih1 ih2 =>
      intro p hp
      injection hp with hr
      subst hr
      rcases rmatches_cls_iff.mp h1 with ⟨c', hc, hp'⟩
      injection hc with e1 e2
      subst e1
      subst e2
      intro x hx
      rcases List.mem_append.mp hx with hx | hx
      · rcases List.mem_singleton.mp hx with rfl
        exact hp'
      · exact ih2 p rfl x hx

theorem rmatches_star_cls {p : Char → Bool} {s : List Char} :
    RMatches (.star (.cls p)) s ↔ ∀ c ∈ s, p c = true := by
  constructor
  · intro h
    exact rmatches_star_cls_aux h p rfl
  · intro hall
    induction s with
    | nil => exact .starNil
    | cons c t ih =>
        have hc : p c = true := hall c (by simp)
        have ht : RMatches (.star (.cls p)) t :=
          ih (fun x hx => hall x (by simp [hx]))
        exact RMatches.starCons (.cls hc) ht

theorem rmatches_plus_cls {p : Char → Bool} {s : List Char} :
    RMatches (plus (.cls p)) s ↔ s ≠ [] ∧ ∀ c ∈ s, p c = true := by
  rw [plus, rmatches_seq_iff]
  constructor
  · rintro ⟨s1, s2, rfl, h1, h2⟩
    rcases rmatches_cls_iff.mp h1 with ⟨c, rfl, hp⟩
    have hall := rmatches_star_cls.mp h2
    refine ⟨by simp, ?_⟩
    intro x hx
    rcases List.mem_append.mp hx with hx | hx
    · rcases List.mem_singleton.mp hx with rfl
      exact hp
    · exact hall x hx
  · rintro ⟨hne, hall⟩
    cases s with
    | nil => cases hne rfl
    | cons c t =>
        exact ⟨[c], t, rfl, .cls (hall c (by simp)),
          rmatches_star_cls.mpr (fun x hx => hall x (by simp [hx]))⟩

theorem rmatches_opt_iff {r : Regex} {s : List Char} :
    RMatches (opt r) s ↔ s = [] ∨ RMatches r s := by
  rw [opt, rmatches_alt_iff, rmatches_eps_iff]

/-!  The queue-URL pattern of `validateQueueUrl`:
`/^https:\/\/sqs\.[a-z0-9-]+\.amazonaws\.com(\.cn)?\/\d+\/.+$/`. -/

/-- The character class `[a-z0-9-]` of the region part. -/
theorem rmatches_urlPattern_iff {s : List Char} :
    RMatches urlPattern s ↔ IsQueueUrlShape s := by
  constructor
  · intro h
    rw [urlPattern, rmatches_seq_iff] at h
    obtain ⟨a, rest1, rfl, ha, h⟩ := h
    rw [litS, rmatches_lit_iff] at ha
    subst ha
    rw [rmatches_seq_iff] at h
    obtain ⟨region, rest2, rfl, hreg, h⟩ := h
    rw [rmatches_plus_cls] at hreg
    rw [rmatches_seq_iff] at h
    obtain ⟨b, rest3, rfl, hb, h⟩ := h
    rw [litS, rmatches_lit_iff] at hb
    subst hb
    rw [rmatches_seq_iff] at h
    obtain ⟨cn, rest4, rfl, hcn, h⟩ := h
    rw [rmatches_opt_iff] at hcn
    rw [rmatches_seq_iff] at h
    obtain ⟨sl1, rest5, rfl, hsl1, h⟩ := h
    rw [rmatches_cls_iff] at hsl1
    obtain ⟨c1, rfl, hc1⟩ := hsl1
    rw [rmatches_seq_iff] at h
    obtain ⟨acct, rest6, rfl, hacct, h⟩ := h
    rw [rmatches_plus_cls] at hacct
    rw [rmatches_seq_iff] at h
    obtain ⟨sl2, name, rfl, hsl2, hname⟩ := h
    rw [rmatches_cls_iff] at hsl2
    obtain ⟨c2, rfl, hc2⟩ := hsl2
    rw [rmatches_plus_cls] at hname
    have hc1' : c1 = '/' := by simpa using hc1
    have hc2' : c2 = '/' := by simpa using hc2
    subst hc1'
    subst hc2'
    refine ⟨region, cn, acct, name, ?_, hreg.1, hreg.2, ?_, hacct.1, hacct.2,
      hname.1, hname.2⟩
    · simp [List.append_assoc]
    · rcases hcn with hcn | hcn
      · exact Or.inl hcn
      · rw [litS, rmatches_lit_iff] at hcn
        exact Or.inr hcn
  · rintro ⟨region, cn, acct, name, rfl, hreg1, hreg2, hcn, hacct1, hacct2,
      hname1, hname2⟩
    rw [urlPattern]
    refine rmatches_seq_iff.mpr ⟨"https://sqs.".data, _, rfl, rmatches_lit_iff.mpr rfl, ?_⟩
    refine rmatches_seq_iff.mpr ⟨region, _, rfl, rmatches_plus_cls.mpr ⟨hreg1, hreg2⟩, ?_⟩
    refine rmatches_seq_iff.mpr ⟨".amazonaws.com".data, _, rfl, rmatches_lit_iff.mpr rfl, ?_⟩
    refine rmatches_seq_iff.mpr ⟨cn, _, rfl, ?_, ?_⟩
    · rw [rmatches_opt_iff]
      rcases hcn with hcn | hcn
      · exact Or.inl hcn
      · subst hcn
        exact Or.inr (rmatches_lit_iff.mpr rfl)
    refine rmatches_seq_iff.mpr ⟨['/'], _, rfl, .cls (by simp), ?_⟩
    refine rmatches_seq_iff.mpr ⟨acct, _, rfl, rmatches_plus_cls.mpr ⟨hacct1, hacct2⟩, ?_⟩
    refine rmatches_seq_iff.mpr ⟨['/'], name, rfl, .cls (by simp), ?_⟩
    exact rmatches_plus_cls.mpr ⟨hname1, hname2⟩

/-- `validateQueueUrl` succeeds exactly on the shape it matches. -/
theorem validateQueueUrl_ok_iff {url : String} :
    validateQueueUrl url = .ok () ↔ IsQueueUrlShape url.data := by
  rw [← rmatches_urlPattern_iff]
  constructor
  · intro hok
    by_cases h : rmatch urlPattern url.data = true
    · exact (rmatch_iff _ _).1 h
    · rw [validateQueueUrl, if_neg h] at hok
      cases hok
  · intro hm
    rw [validateQueueUrl, if_pos ((rmatch_iff _ _).2 hm)]

theorem takeWhile_digit_isEmpty (l : List Char) :
    ((l.takeWhile fun c => c.isDigit).isEmpty = true) ↔ headIsDigit l = false := by
  cases l with
  | nil => simp [headIsDigit]
  | cons c t =>
      by_cases h : c.isDigit = true
      · simp [List.takeWhile_cons, h, headIsDigit]
      · simp [List.takeWhile_cons, h, headIsDigit]

theorem jsParseInt10_none_iff (s : String) :
    jsParseInt10 s = none ↔ hasLeadingInt s = false := by
  rw [jsParseInt10, hasLeadingInt]
  set l := (parseIntSign (s.data.dropWhile fun c => c.isWhitespace)).2 with hl
  by_cases hd : (l.takeWhile fun c => c.isDigit).isEmpty = true
  · simp [hd, (takeWhile_digit_isEmpty l).mp hd]
  · have := (takeWhile_digit_isEmpty l).not.mp hd
    simp only [Bool.not_eq_false] at this
    simp [hd, this]

theorem parseDelayInput_error_iff (raw : String) :
    (∃ e, parseDelayInput raw = .error e) ↔
      hasLeadingInt (if raw.isEmpty then "0" else raw) = false := by
  rw [← jsParseInt10_none_iff]
  unfold parseDelayInput
  cases h : jsParseInt10 (if raw.isEmpty then "0" else raw) with
  | none => simp [h]
  | some n => simp [h]

theorem utf8ByteLength_replicate (n : Nat) (c : Char) :
    utf8ByteLength (String.mk (List.replicate n c)) = n * c.utf8Size := by
  simp [utf8ByteLength, List.map_replicate, List.sum_replicate, smul_eq_mul]

theorem validateMessageBody_ok_iff (body : String) :
    validateMessageBody body = .ok () ↔ utf8ByteLength body ≤ 262144 := by
  rw [validateMessageBody]
  by_cases h : utf8ByteLength body > 256 * 1024
  · rw [if_pos h]
    constructor
    · intro hc; cases hc
    · intro hc; exact absurd hc (by omega)
  · rw [if_neg h]
    simp only [true_iff]
    omega

theorem validateDelaySeconds_some_iff (d : Int) :
    validateDelaySeconds (some d) = .ok () ↔ 0 ≤ d ∧ d ≤ 900 := by
  rw [validateDelaySeconds]
  by_cases h : d < 0 ∨ d > 900
  · rw [if_pos h]
    constructor
    · intro hc; cases hc
    · intro hc; omega
  · rw [if_neg h]
    simp only [true_iff]
    omega

theorem parseEntry_ok_inv {key : String} {v : Json} {a : MessageAttributeValue}
    (h : parseEntry key v = .ok a) : HasRequiredPayload a := by
  unfold parseEntry at h
  simp only [bind, Except.bind, pure, Except.pure] at h
  repeat' split at h
  all_goals simp_all
  all_goals subst h
  all_goals refine ⟨by simp, ?_, ?_⟩ <;>
    (try simp +decide [Option.isSome_iff_ne_none]) <;> (try assumption)

theorem parseEntries_payload {entries : List (String × Json)}
    {out : List (String × MessageAttributeValue)}
    (h : parseEntries entries = .ok out) :
    ∀ kv ∈ out, HasRequiredPayload kv.2 := by
  induction entries generalizing out with
  | nil =>
      simp only [parseEntries] at h
      injection h with h
      subst h
      intro kv hkv
      cases hkv
  | cons e rest ih =>
      obtain ⟨k, v⟩ := e
      simp only [parseEntries, bind, Except.bind] at h
      cases he : parseEntry k v with
      | error _ => rw [he] at h; cases h
      | ok a =>
          rw [he] at h
          cases hr : parseEntries rest with
          | error _ => rw [hr] at h; cases h
          | ok tail =>
              rw [hr] at h
              simp only [pure, Except.pure] at h
              injection h with h
              subst h
              intro kv hkv
              rcases List.mem_cons.mp hkv with rfl | hkv
              · exact parseEntry_ok_inv he
              · exact ih hr kv hkv

theorem parseMessageAttributes_payload {parsed? : Option Json}
    {out : List (String × MessageAttributeValue)}
    (h : parseMessageAttributes parsed? = .ok out) :
    ∀ kv ∈ out, HasRequiredPayload kv.2 := by
  cases parsed? with
  | none => cases h
  | some parsed =>
      cases je : jsEntries parsed with
      | error _ =>
          simp only [parseMessageAttributes, je, bind, Except.bind] at h
          cases h
      | ok entries =>
          simp only [parseMessageAttributes, je, bind, Except.bind] at h
          by_cases hlen : entries.length > 10
          · rw [if_pos hlen] at h
            cases h
          · rw [if_neg hlen] at h
            exact parseEntries_payload h

theorem addDelay_fields (config : MessageConfig) (input : SendMessageCommandInput) :
    (addDelay config input).QueueUrl = input.QueueUrl ∧
    (addDelay config input).MessageBody = input.MessageBody ∧
    (addDelay config input).MessageGroupId = input.MessageGroupId ∧
    (addDelay config input).DelaySeconds = (match config.delaySeconds with
      | some d => if d > 0 then some d else input.DelaySeconds
      | none => input.DelaySeconds) := by
  unfold addDelay
  cases config.delaySeconds with
  | none => simp
  | some d =>
      by_cases hd : d > 0
      · simp [hd]
      · simp [hd]

theorem addMessageAttributes_ok_inv {config : MessageConfig}
    {input out : SendMessageCommandInput}
    (h : addMessageAttributes config input = .ok out) :
    out.QueueUrl = input.QueueUrl ∧ out.MessageBody = input.MessageBody ∧
    out.MessageGroupId = input.MessageGroupId ∧
    out.DelaySeconds = input.DelaySeconds := by
  unfold addMessageAttributes at h
  cases hma : config.messageAttributes with
  | none =>
      rw [hma] at h
      injection h with h
      subst h
      exact ⟨rfl, rfl, rfl, rfl⟩
  | some pj =>
      rw [hma] at h
      simp only [bind, Except.bind] at h
      cases hpa : parseMessageAttributes pj with
      | error e => rw [hpa] at h; cases h
      | ok attrs =>
          rw [hpa] at h
          simp only [pure, Except.pure] at h
          injection h with h
          subst h
          exact ⟨rfl, rfl, rfl, rfl⟩

theorem addSystemAttributes_ok_inv {config : MessageConfig}
    {input out : SendMessageCommandInput}
    (h : addSystemAttributes config input = .ok out) :
    out.QueueUrl = input.QueueUrl ∧ out.MessageBody = input.MessageBody ∧
    out.MessageGroupId = input.MessageGroupId ∧
    out.DelaySeconds = input.DelaySeconds := by
  unfold addSystemAttributes at h
  cases hsa : config.systemAttributes with
  | none =>
      rw [hsa] at h
      injection h with h
      subst h
      exact ⟨rfl, rfl, rfl, rfl⟩
  | some pj =>
      rw [hsa] at h
      simp only [bind, Except.bind] at h
      cases hpa : parseSystemAttributes pj with
      | error e => rw [hpa] at h; cases h
      | ok attrs =>
          rw [hpa] at h
          simp only [pure, Except.pure] at h
          injection h with h
          subst h
          exact ⟨rfl, rfl, rfl, rfl⟩

theorem addGroupId_fields (config : MessageConfig) (input : SendMessageCommandInput) :
    (addGroupId config input).QueueUrl = input.QueueUrl ∧
    (addGroupId config input).MessageBody = input.MessageBody ∧
    (addGroupId config input).DelaySeconds = input.DelaySeconds ∧
    (addGroupId config input).MessageGroupId =
      (if strTruthy config.messageGroupId then config.messageGroupId
       else input.MessageGroupId) := by
  unfold addGroupId
  by_cases hg : strTruthy config.messageGroupId = true
  · simp [hg]
  · simp [hg]

theorem addDedupId_fields (config : MessageConfig) (input : SendMessageCommandInput) :
    (addDedupId config input).QueueUrl = input.QueueUrl ∧
    (addDedupId config input).MessageBody = input.MessageBody ∧
    (addDedupId config input).DelaySeconds = input.DelaySeconds ∧
    (addDedupId config input).MessageGroupId = input.MessageGroupId := by
  unfold addDedupId
  by_cases hd : strTruthy config.messageDeduplicationId = true
  · simp [hd]
  · simp [hd]

theorem buildInput_ok_inv {config : MessageConfig} {input : SendMessageCommandInput}
    {w : Bool} (h : buildInput config = .ok (input, w)) :
    validateQueueUrl config.queueUrl = .ok () ∧
    validateMessageBody config.messageBody = .ok () ∧
    validateDelaySeconds config.delaySeconds = .ok () ∧
    validateFifoQueue config.queueUrl config.messageGroupId = .ok w ∧
    input.QueueUrl = config.queueUrl ∧
    input.MessageBody = config.messageBody ∧
    input.DelaySeconds = (match config.delaySeconds with
      | some d => if d > 0 then some d else none
      | none => none) ∧
    input.MessageGroupId =
      (if strTruthy config.messageGroupId then config.messageGroupId else none) := by
  unfold buildInput at h
  cases hq : validateQueueUrl config.queueUrl with
  | error e => rw [hq] at h; simp only [bind, Except.bind] at h; cases h
  | ok u =>
  cases u
  rw [hq] at h
  cases hb : validateMessageBody config.messageBody with
  | error e => rw [hb] at h; simp only [bind, Except.bind] at h; cases h
  | ok u =>
  cases u
  rw [hb] at h
  cases hd : validateDelaySeconds config.delaySeconds with
  | error e => rw [hd] at h; simp only [bind, Except.bind] at h; cases h
  | ok u =>
  cases u
  rw [hd] at h
  cases hf : validateFifoQueue config.queueUrl config.messageGroupId with
  | error e => rw [hf] at h; simp only [bind, Except.bind] at h; cases h
  | ok warned =>
  rw [hf] at h
  simp only [bind, Except.bind] at h
  cases h2 : addMessageAttributes config (addDelay config
      { QueueUrl := config.queueUrl, MessageBody := config.messageBody }) with
  | error e => simp only [h2] at h; cases h
  | ok input2 =>
  simp only [h2] at h
  cases h3 : addSystemAttributes config input2 with
  | error e => simp only [h3] at h; cases h
  | ok input3 =>
  simp only [h3] at h
  simp only [pure, Except.pure] at h
  injection h with hpair
  rw [Prod.mk.injEq] at hpair
  obtain ⟨h4, h5⟩ := hpair
  subst h4
  subst h5
  obtain ⟨m1, m2, m3, m4⟩ := addMessageAttributes_ok_inv h2
  obtain ⟨s1, s2, s3, s4⟩ := addSystemAttributes_ok_inv h3
  obtain ⟨d1, d2, d3, d4⟩ := addDelay_fields config
      { QueueUrl := config.queueUrl, MessageBody := config.messageBody }
  obtain ⟨g1, g2, g3, g4⟩ := addGroupId_fields config input3
  obtain ⟨u1, u2, u3, u4⟩ := addDedupId_fields config (addGroupId config input3)
  refine ⟨rfl, rfl, rfl, rfl, ?_, ?_, ?_, ?_⟩
  · rw [u1, g1, s1, m1, d1]
  · rw [u2, g2, s2, m2, d2]
  · rw [u3, g3, s4, m4, d4]
  · rw [u4, g4, s3, m3, d3]

theorem parseEntry_binary_missing {key : String} {fields : List (String × Json)}
    (h1 : fields.lookup "DataType" = some (.str "Binary"))
    (h2 : fields.lookup "BinaryValue" = none) :
    parseEntry key (.obj fields) = .error (.missingBinaryValue key) := by
  unfold parseEntry
  simp only [jsGetProp, h1, h2, bind, Except.bind, pure, Except.pure, jsTruthy]
  simp +decide

theorem parseEntry_str (key : String) (s : String) :
    parseEntry key (.str s) = .error (.missingDataType key) := by
  unfold parseEntry
  simp [jsGetProp, bind, Except.bind, pure, Except.pure]

/-!  The claims. -/

/-- **C1** (amended): for every attribute entry with DataType `Binary`,
`parseMessageAttributes` requires a `BinaryValue` field — absence fails
with the missing-`BinaryValue` `SchemaError` — and decodes a present
`BinaryValue` with Node's *lenient* base64 decoder, which never fails:
`"not-base64!"` succeeds (yielding the bytes of its valid base64
characters) rather than failing with a `DecodeError`, and `"aGVsbG8="`
succeeds with the bytes of `"hello"`. -/
theorem C1_binary_attributes :
    (∀ (key : String) (fields : List (String × Json)),
      fields.lookup "DataType" = some (.str "Binary") →
      fields.lookup "BinaryValue" = none →
      parseMessageAttributes (some (.obj [(key, .obj fields)])) =
        .error (.missingBinaryValue key)) ∧
    (parseMessageAttributes (some (.obj [("k", .obj [("DataType", .str "Binary"),
        ("BinaryValue", .str "not-base64!")])]))).isOk = true ∧
    parseMessageAttributes (some (.obj [("k", .obj [("DataType", .str "Binary"),
        ("BinaryValue", .str "aGVsbG8=")])])) =
      .ok [("k", { DataType := "Binary",
                   BinaryValue := some [104, 101, 108, 108, 111] })] := by
  refine ⟨?_, rfl, rfl⟩
  intro key fields h1 h2
  simp only [parseMessageAttributes, jsEntries, bind, Except.bind]
  rw [if_neg (by simp)]
  simp only [parseEntries, parseEntry_binary_missing h1 h2, bind, Except.bind]

/-- **C1** counterexample to the claim as stated: the entry
`{"DataType":"Binary","BinaryValue":"not-base64!"}` does *not* fail with a
`DecodeError` — `Buffer.from(…, 'base64')` decodes leniently and the parse
succeeds. -/
theorem C1_counterexample :
    (parseMessageAttributes (some (.obj [("k", .obj [("DataType", .str "Binary"),
        ("BinaryValue", .str "not-base64!")])]))).isOk = true := rfl

/-- Witness for `C1_binary_attributes`. -/
theorem C1_witness :
    ([("DataType", Json.str "Binary")] : List (String × Json)).lookup "DataType" =
        some (.str "Binary") ∧
    ([("DataType", Json.str "Binary")] : List (String × Json)).lookup "BinaryValue" = none ∧
    parseMessageAttributes (some (.obj [("k", .obj [("DataType", .str "Binary")])])) =
      .error (.missingBinaryValue "k") :=
  ⟨rfl, rfl, C1_binary_attributes.1 "k" [("DataType", Json.str "Binary")] rfl rfl⟩

/-- **C2** (amended): text that is not valid JSON fails (`JSON.parse`
throws), and JSON `null` fails with a `TypeError`; but JSON values that
are not objects are *not* rejected as such: numbers, booleans, the empty
string and the empty array yield an empty attribute map, and a nonempty
string fails only because its first indexed character lacks a `DataType`. -/
theorem C2_nonobject_inputs :
    parseMessageAttributes none = .error .attrParseError ∧
    parseMessageAttributes (some .null) = .error .attrTypeError ∧
    (∀ n : Int, parseMessageAttributes (some (.num n)) = .ok []) ∧
    (∀ b : Bool, parseMessageAttributes (some (.bool b)) = .ok []) ∧
    parseMessageAttributes (some (.str "")) = .ok [] ∧
    parseMessageAttributes (some (.arr [])) = .ok [] ∧
    (∀ s : String, s.data ≠ [] → s.length ≤ 10 →
      parseMessageAttributes (some (.str s)) = .error (.missingDataType "0")) := by
  refine ⟨rfl, rfl, fun n => rfl, fun b => ?_, rfl, rfl, ?_⟩
  · cases b <;> rfl
  · intro s h1 h2
    obtain ⟨l⟩ := s
    cases l with
    | nil => exact absurd rfl h1
    | cons c rest =>
        have hlen : (((c :: rest).enum.map
            fun p => (toString p.1, Json.str p.2.toString)).length) ≤ 10 := by
          simpa [String.length] using h2
        simp only [parseMessageAttributes, jsEntries, bind, Except.bind]
        rw [if_neg (by omega)]
        simp only [List.enum, List.enumFrom, List.map]
        simp only [parseEntries, bind, Except.bind]
        rw [show parseEntry (toString (0 : Nat)) (Json.str c.toString) =
          .error (.missingDataType "0") from parseEntry_str "0" c.toString]

/-- **C2** counterexample to the claim as stated: the JSON number `5` is
not an object, yet `parseMessageAttributes` succeeds and returns the empty
attribute map (`Object.keys(5)` is `[]`). -/
theorem C2_counterexample :
    parseMessageAttributes (some (.num 5)) = .ok [] := rfl

/-- Witness for `C2_nonobject_inputs`. -/
theorem C2_witness :
    ("hello" : String).data ≠ [] ∧ ("hello" : String).length ≤ 10 ∧
    parseMessageAttributes (some (.str "hello")) = .error (.missingDataType "0") :=
  ⟨by decide, by decide, C2_nonobject_inputs.2.2.2.2.2.2 "hello" (by decide) (by decide)⟩

/-- **C3** (amended): `validateQueueUrl` succeeds exactly on URLs of the
shape `https://sqs.<region>.amazonaws.com[.cn]/<account-id>/<queue-name>`
where the region is a nonempty run of lowercase letters, digits and
hyphens, the account id a nonempty run of digits, and the queue-name part
one or more arbitrary non-line-terminator characters — slashes *are*
allowed there, because the source regex ends in `.+`; every other URL
fails with a `FormatError`. -/
theorem C3_queue_url_shape (url : String) :
    (validateQueueUrl url = .ok () ↔ IsQueueUrlShape url.data) ∧
    (¬IsQueueUrlShape url.data → validateQueueUrl url = .error (.formatError url)) := by
  refine ⟨validateQueueUrl_ok_iff, ?_⟩
  intro hn
  rw [validateQueueUrl,
    if_neg (fun hm => hn (rmatches_urlPattern_iff.mp ((rmatch_iff _ _).mp hm)))]

/-- **C3** counterexample to the claim as stated: a queue name containing
a slash (`a/b`) is accepted by the code, while the spec's pattern (queue
name = non-slash characters, embedded as `specUrlPattern`) rejects it. -/
theorem C3_counterexample :
    validateQueueUrl "https://sqs.us-east-1.amazonaws.com/123456789012/a/b" = .ok () ∧
    rmatch specUrlPattern
      "https://sqs.us-east-1.amazonaws.com/123456789012/a/b".data = false := ⟨rfl, rfl⟩

/-- Witness for `C3_queue_url_shape`. -/
theorem C3_witness :
    ¬IsQueueUrlShape ("http://x" : String).data ∧
    validateQueueUrl "http://x" = .error (.formatError "http://x") :=
  have hn : ¬IsQueueUrlShape ("http://x" : String).data := fun hm =>
    absurd ((rmatch_iff _ _).mpr (rmatches_urlPattern_iff.mpr hm)) (by decide)
  ⟨hn, (C3_queue_url_shape "http://x").2 hn⟩

/-- **C4** (amended): the delay-seconds stage of `run` fails with a
`FormatError` exactly when the (defaulted) input text has no leading
integer — no decimal digit after optional whitespace and sign, e.g.
`"abc"`; text with a numeric prefix such as `"12abc"` is *not* rejected:
`parseInt` truncates it to its leading integer (12), which is then subject
to the 0–900 range check. -/
theorem C4_delay_text :
    (∀ raw : String, (∃ e, parseDelayInput raw = .error e) ↔
      hasLeadingInt (if raw.isEmpty then "0" else raw) = false) ∧
    parseDelayInput "abc" = .error (.formatError "abc") ∧
    parseDelayInput "12abc" = .ok 12 ∧
    (∀ d : Int, validateDelaySeconds (some d) = .ok () ↔ 0 ≤ d ∧ d ≤ 900) := by
  exact ⟨parseDelayInput_error_iff, rfl, rfl, validateDelaySeconds_some_iff⟩

/-- **C4** counterexample to the claim as stated: `"12abc"` is not numeric
text, yet the run does not fail — `parseInt("12abc", 10)` yields 12, which
passes the range check. -/
theorem C4_counterexample :
    parseDelayInput "12abc" = .ok 12 ∧ validateDelaySeconds (some 12) = .ok () :=
  ⟨rfl, rfl⟩

/-- Witness for `C4_delay_text`. -/
theorem C4_witness :
    hasLeadingInt "abc" = false ∧ (∃ e, parseDelayInput "abc" = .error e) :=
  ⟨rfl, (C4_delay_text.1 "abc").mpr rfl⟩

/-- **C5** (amended): every attribute produced by `parseMessageAttributes`
has a valid type tag and carries the payload *required* by it (text for
`String`/`Number`, bytes for `Binary`), but not *exactly one* payload: the
builder copies both `StringValue` and `BinaryValue` whenever both fields
are present in the entry, whatever the tag. -/
theorem C5_payload_presence :
    (∀ (parsed? : Option Json) (out : List (String × MessageAttributeValue)),
      parseMessageAttributes parsed? = .ok out →
      ∀ kv ∈ out, HasRequiredPayload kv.2) ∧
    parseMessageAttributes (some (.obj [("k", .obj [("DataType", .str "String"),
        ("StringValue", .str "a"), ("BinaryValue", .str "aGVsbG8=")])])) =
      .ok [("k", { DataType := "String", StringValue := some "a",
                   BinaryValue := some [104, 101, 108, 108, 111] })] :=
  ⟨fun _ _ h => parseMessageAttributes_payload h, rfl⟩

/-- **C5** counterexample to the claim as stated: an entry carrying both
`StringValue` and `BinaryValue` under `DataType: String` is accepted and
the produced attribute carries *both* payloads. -/
theorem C5_counterexample :
    parseMessageAttributes (some (.obj [("k", .obj [("DataType", .str "String"),
        ("StringValue", .str "a"), ("BinaryValue", .str "aGVsbG8=")])])) =
      .ok [("k", { DataType := "String", StringValue := some "a",
                   BinaryValue := some [104, 101, 108, 108, 111] })] := rfl

/-- Witness for `C5_payload_presence`. -/
theorem C5_witness :
    parseMessageAttributes (some (.obj [("k", .obj [("DataType", .str "Binary"),
        ("BinaryValue", .str "aGVsbG8=")])])) =
      .ok [("k", { DataType := "Binary",
                   BinaryValue := some [104, 101, 108, 108, 111] })] ∧
    HasRequiredPayload
      ({ DataType := "Binary", BinaryValue := some [104, 101, 108, 108, 111] }
        : MessageAttributeValue) :=
  ⟨rfl, C5_payload_presence.1
    (some (.obj [("k", .obj [("DataType", .str "Binary"),
      ("BinaryValue", .str "aGVsbG8=")])]))
    [("k", { DataType := "Binary", BinaryValue := some [104, 101, 108, 108, 111] })]
    rfl
    ("k", { DataType := "Binary", BinaryValue := some [104, 101, 108, 108, 111] })
    (List.mem_singleton.mpr rfl)⟩

/-- **C6** (confirmed): `validateMessageBody` measures the UTF-8 byte
length of the body — not its character count — and fails with a
`SizeLimitError` exactly when that length exceeds 262144: a body of
exactly 262144 bytes succeeds, one of 262145 bytes fails, and 131073
two-byte characters (262146 bytes but only 131073 characters) also
fail. -/
theorem C6_body_size :
    (∀ body : String, validateMessageBody body = .ok () ↔
      utf8ByteLength body ≤ 262144) ∧
    validateMessageBody (String.mk (List.replicate 262144 'a')) = .ok () ∧
    (validateMessageBody (String.mk (List.replicate 262145 'a'))).isOk = false ∧
    (validateMessageBody (String.mk (List.replicate 131073 'é'))).isOk = false := by
  refine ⟨validateMessageBody_ok_iff, ?_, ?_, ?_⟩
  · rw [validateMessageBody_ok_iff, utf8ByteLength_replicate]
    norm_num [show ('a').utf8Size = 1 from rfl]
  · have h : utf8ByteLength (String.mk (List.replicate 262145 'a')) = 262145 := by
      rw [utf8ByteLength_replicate]
      norm_num [show ('a').utf8Size = 1 from rfl]
    rw [validateMessageBody, h, if_pos (by norm_num)]
    rfl
  · have h : utf8ByteLength (String.mk (List.replicate 131073 'é')) = 262146 := by
      rw [utf8ByteLength_replicate]
      norm_num [show ('é').utf8Size = 2 from rfl]
    rw [validateMessageBody, h, if_pos (by norm_num)]
    rfl

/-- **C7** (confirmed): a present delay passes `validateDelaySeconds`
exactly when `0 ≤ delay ≤ 900` (−1 and 901 fail with a `RangeError`, 0 and
900 succeed), an absent delay is valid, and the built request omits
`DelaySeconds` entirely whenever the configured delay is absent or 0. -/
theorem C7_delay_validation :
    (∀ d : Int, validateDelaySeconds (some d) = .ok () ↔ 0 ≤ d ∧ d ≤ 900) ∧
    validateDelaySeconds none = .ok () ∧
    validateDelaySeconds (some (-1)) = .error (.rangeError (-1)) ∧
    validateDelaySeconds (some 901) = .error (.rangeError 901) ∧
    validateDelaySeconds (some 0) = .ok () ∧
    validateDelaySeconds (some 900) = .ok () ∧
    (∀ (config : MessageConfig) (input : SendMessageCommandInput) (w : Bool),
      buildInput config = .ok (input, w) →
      config.delaySeconds = none ∨ config.delaySeconds = some 0 →
      input.DelaySeconds = none) := by
  refine ⟨validateDelaySeconds_some_iff, rfl, rfl, rfl, rfl, rfl, ?_⟩
  intro config input w h hd
  obtain ⟨-, -, -, -, -, -, hds, -⟩ := buildInput_ok_inv h
  rcases hd with hd | hd <;> rw [hd] at hds <;> simpa using hds

/-- Witness for `C7_delay_validation`. -/
theorem C7_witness :
    buildInput { queueUrl := "https://sqs.us-east-1.amazonaws.com/123456789012/queue",
                 messageBody := "hi" } =
      .ok ({ QueueUrl := "https://sqs.us-east-1.amazonaws.com/123456789012/queue",
             MessageBody := "hi" }, false) ∧
    ({ QueueUrl := "https://sqs.us-east-1.amazonaws.com/123456789012/queue",
       MessageBody := "hi" } : SendMessageCommandInput).DelaySeconds = none :=
  ⟨rfl, C7_delay_validation.2.2.2.2.2.2
    { queueUrl := "https://sqs.us-east-1.amazonaws.com/123456789012/queue",
      messageBody := "hi" }
    { QueueUrl := "https://sqs.us-east-1.amazonaws.com/123456789012/queue",
      MessageBody := "hi" }
    false rfl (Or.inl rfl)⟩

/-- **C8** (amended): a `.fifo` queue URL with no group ID fails with a
`MissingRequiredFieldError`; a non-`.fifo` URL with a *nonempty* group ID
emits the non-fatal warning, does not abort, and the group ID is forwarded
in the built request.  (An *empty* group-ID string is falsy in JS and is
treated as absent: no warning, nothing forwarded — see
`C8_counterexample`.) -/
theorem C8_fifo_rules :
    (∀ url : String, strEndsWith url ".fifo" = true →
      validateFifoQueue url none = .error .missingRequiredFieldError) ∧
    (∀ url g : String, strEndsWith url ".fifo" = false → g.isEmpty = false →
      validateFifoQueue url (some g) = .ok true) ∧
    (∀ (config : MessageConfig) (input : SendMessageCommandInput) (w : Bool)
        (g : String),
      buildInput config = .ok (input, w) → config.messageGroupId = some g →
      g.isEmpty = false → input.MessageGroupId = some g) := by
  refine ⟨?_, ?_, ?_⟩
  · intro url h
    simp [validateFifoQueue, h, strTruthy]
  · intro url g h1 h2
    simp [validateFifoQueue, h1, h2, strTruthy]
  · intro config input w g h hg hne
    obtain ⟨-, -, -, -, -, -, -, hmg⟩ := buildInput_ok_inv h
    rw [hg] at hmg
    simpa [strTruthy, hne] using hmg

/-- **C8** counterexample to the claim as stated: with the group ID
present but *empty* on a standard queue, no warning is emitted
(`validateFifoQueue` returns `ok false`) and the group ID is *not*
forwarded (the built request's `MessageGroupId` is `none`), because the
source tests JS truthiness, not presence. -/
theorem C8_counterexample :
    validateFifoQueue "https://sqs.us-east-1.amazonaws.com/123456789012/q"
      (some "") = .ok false ∧
    (buildInput { queueUrl := "https://sqs.us-east-1.amazonaws.com/123456789012/q",
                  messageBody := "hi", messageGroupId := some "" }).map
      (fun p => p.1.MessageGroupId) = .ok none := ⟨rfl, rfl⟩

/-- Witness for `C8_fifo_rules`. -/
theorem C8_witness :
    buildInput { queueUrl := "https://sqs.us-east-1.amazonaws.com/123456789012/q",
                 messageBody := "hi", messageGroupId := some "g" } =
      .ok ({ QueueUrl := "https://sqs.us-east-1.amazonaws.com/123456789012/q",
             MessageBody := "hi", MessageGroupId := some "g" }, true) ∧
    ("g" : String).isEmpty = false ∧
    ({ QueueUrl := "https://sqs.us-east-1.amazonaws.com/123456789012/q",
       MessageBody := "hi", MessageGroupId := some "g" }
      : SendMessageCommandInput).MessageGroupId = some "g" :=
  ⟨rfl, rfl, C8_fifo_rules.2.2
    { queueUrl := "https://sqs.us-east-1.amazonaws.com/123456789012/q",
      messageBody := "hi", messageGroupId := some "g" }
    { QueueUrl := "https://sqs.us-east-1.amazonaws.com/123456789012/q",
      MessageBody := "hi", MessageGroupId := some "g" }
    true "g" rfl rfl rfl⟩

/-- **C9** (confirmed): the validation-and-build phase applies its rules
in the order URL format → body size → delay range → FIFO requirement →
message-attribute schema → system-attribute schema; it is fail-fast (the
first violated rule's error is the reported one), and on any error the
whole operation aborts with a `success: false` result and nothing is ever
handed to the client. -/
theorem C9_order (config : MessageConfig) :
    (∀ e, validateQueueUrl config.queueUrl = .error e →
      buildInput config = .error e) ∧
    (∀ e, validateQueueUrl config.queueUrl = .ok () →
      validateMessageBody config.messageBody = .error e →
      buildInput config = .error e) ∧
    (∀ e, validateQueueUrl config.queueUrl = .ok () →
      validateMessageBody config.messageBody = .ok () →
      validateDelaySeconds config.delaySeconds = .error e →
      buildInput config = .error e) ∧
    (∀ e, validateQueueUrl config.queueUrl = .ok () →
      validateMessageBody config.messageBody = .ok () →
      validateDelaySeconds config.delaySeconds = .ok () →
      validateFifoQueue config.queueUrl config.messageGroupId = .error e →
      buildInput config = .error e) ∧
    (∀ e parsed?, validateQueueUrl config.queueUrl = .ok () →
      validateMessageBody config.messageBody = .ok () →
      validateDelaySeconds config.delaySeconds = .ok () →
      (∃ w, validateFifoQueue config.queueUrl config.messageGroupId = .ok w) →
      config.messageAttributes = some parsed? →
      parseMessageAttributes parsed? = .error e →
      buildInput config = .error e) ∧
    (∀ e parsed?, validateQueueUrl config.queueUrl = .ok () →
      validateMessageBody config.messageBody = .ok () →
      validateDelaySeconds config.delaySeconds = .ok () →
      (∃ w, validateFifoQueue config.queueUrl config.messageGroupId = .ok w) →
      (config.messageAttributes = none ∨
        ∃ pj attrs, config.messageAttributes = some pj ∧
          parseMessageAttributes pj = .ok attrs) →
      config.systemAttributes = some parsed? →
      parseSystemAttributes parsed? = .error e →
      buildInput config = .error e) ∧
    (∀ e send, buildInput config = .error e →
      sendMessage send config =
        ({ success := false, error := some (errorMessage e) }, none)) := by
  refine ⟨?_, ?_, ?_, ?_, ?_, ?_, ?_⟩
  · intro e h
    unfold buildInput
    simp only [h, bind, Except.bind]
  · intro e hq h
    unfold buildInput
    simp only [hq, h, bind, Except.bind]
  · intro e hq hb h
    unfold buildInput
    simp only [hq, hb, h, bind, Except.bind]
  · intro e hq hb hd h
    unfold buildInput
    simp only [hq, hb, hd, h, bind, Except.bind]
  · intro e parsed? hq hb hd hf hma hpa
    obtain ⟨w, hf⟩ := hf
    unfold buildInput
    simp only [hq, hb, hd, hf, bind, Except.bind]
    have hm : addMessageAttributes config (addDelay config
        { QueueUrl := config.queueUrl, MessageBody := config.messageBody }) =
        .error e := by
      unfold addMessageAttributes
      simp only [hma, hpa, bind, Except.bind]
    simp only [hm]
  · intro e parsed? hq hb hd hf hok hsa hps
    obtain ⟨w, hf⟩ := hf
    unfold buildInput
    simp only [hq, hb, hd, hf, bind, Except.bind]
    have hs : ∀ i : SendMessageCommandInput,
        addSystemAttributes config i = .error e := by
      intro i
      unfold addSystemAttributes
      simp only [hsa, hps, bind, Except.bind]
    rcases hok with hok | ⟨pj, attrs, hok, hpj⟩
    · have hm : addMessageAttributes config (addDelay config
          { QueueUrl := config.queueUrl, MessageBody := config.messageBody }) =
          .ok (addDelay config
            { QueueUrl := config.queueUrl, MessageBody := config.messageBody }) := by
        unfold addMessageAttributes
        simp only [hok]
        rfl
      simp only [hm, hs]
    · have hm : addMessageAttributes config (addDelay config
          { QueueUrl := config.queueUrl, MessageBody := config.messageBody }) =
          .ok { addDelay config
              { QueueUrl := config.queueUrl, MessageBody := config.messageBody } with
              MessageAttributes := some attrs } := by
        unfold addMessageAttributes
        simp only [hok, hpj, bind, Except.bind]
        rfl
      simp only [hm, hs]
  · intro e send h
    unfold sendMessage
    simp only [h]

/-- Witness for `C9_order`. -/
theorem C9_witness :
    validateQueueUrl "http://x" = .error (.formatError "http://x") ∧
    buildInput { queueUrl := "http://x", messageBody := "hi" } =
      .error (.formatError "http://x") :=
  ⟨rfl, (C9_order { queueUrl := "http://x", messageBody := "hi" }).1
    (.formatError "http://x") rfl⟩

/-- **C10** (confirmed): for every config and client outcome,
`sendMessage` returns a result in which exactly one side is populated: on
success, `success` is `true`, the provider-returned fields are copied and
`error` is absent; on any validation or transport failure, `success` is
`false`, all success fields are absent and only the error description is
present.  The model is a total function: the source's `try/catch` turns
every thrown error into a returned result, so `sendMessage` never throws. -/
theorem C10_result_shape
    (send : SendMessageCommandInput → Except String SendMessageResponse)
    (config : MessageConfig) :
    ((sendMessage send config).1.success = true →
      (sendMessage send config).1.error = none ∧
      ∃ input w response, buildInput config = .ok (input, w) ∧
        send input = .ok response ∧
        (sendMessage send config).1.messageId = response.MessageId ∧
        (sendMessage send config).1.sequenceNumber = response.SequenceNumber ∧
        (sendMessage send config).1.md5OfBody = response.MD5OfMessageBody ∧
        (sendMessage send config).1.md5OfAttributes =
          response.MD5OfMessageAttributes) ∧
    ((sendMessage send config).1.success = false →
      (sendMessage send config).1.messageId = none ∧
      (sendMessage send config).1.sequenceNumber = none ∧
      (sendMessage send config).1.md5OfBody = none ∧
      (sendMessage send config).1.md5OfAttributes = none ∧
      ((sendMessage send config).1.error).isSome = true) := by
  unfold sendMessage
  cases hb : buildInput config with
  | error e => simp
  | ok p =>
      obtain ⟨input, w⟩ := p
      cases hs : send input with
      | error msg => simp [hs]
      | ok response =>
          simp only [hs]
          exact ⟨fun _ => ⟨trivial, input, w, response, rfl, hs, rfl, rfl, rfl, rfl⟩,
            fun hfalse => by cases hfalse⟩

/-- Witness for `C10_result_shape`, at a valid config and a client that
rejects with a transport error. -/
theorem C10_witness :
    (sendMessage (fun _ => .error "transport failure")
      { queueUrl := "https://sqs.us-east-1.amazonaws.com/123456789012/queue",
        messageBody := "hi" }).1.success = false ∧
    ((sendMessage (fun _ => .error "transport failure")
      { queueUrl := "https://sqs.us-east-1.amazonaws.com/123456789012/queue",
        messageBody := "hi" }).1.messageId = none ∧
     (sendMessage (fun _ => .error "transport failure")
      { queueUrl := "https://sqs.us-east-1.amazonaws.com/123456789012/queue",
        messageBody := "hi" }).1.sequenceNumber = none ∧
     (sendMessage (fun _ => .error "transport failure")
      { queueUrl := "https://sqs.us-east-1.amazonaws.com/123456789012/queue",
        messageBody := "hi" }).1.md5OfBody = none ∧
     (sendMessage (fun _ => .error "transport failure")
      { queueUrl := "https://sqs.us-east-1.amazonaws.com/123456789012/queue",
        messageBody := "hi" }).1.md5OfAttributes = none ∧
     ((sendMessage (fun _ => .error "transport failure")
      { queueUrl := "https://sqs.us-east-1.amazonaws.com/123456789012/queue",
        messageBody := "hi" }).1.error).isSome = true) :=
  ⟨rfl, (C10_result_shape (fun _ => .error "transport failure")
    { queueUrl := "https://sqs.us-east-1.amazonaws.com/123456789012/queue",
      messageBody := "hi" }).2 rfl⟩

end Sqs
